import Mathlib

/-!
# Default style registry (`mbgl/util/default_styles.hpp`)

A shallow embedding of the header `platform/default/mbgl/util/default_styles.hpp`:
the record `DefaultStyle`, the eight `extern` descriptor declarations, the
array `orderedStyles` built from them and the count `numOrderedStyles`
computed as `sizeof(orderedStyles) / sizeof(DefaultStyle)`.

The header only *declares* the eight descriptors (`extern const DefaultStyle
streets;` ...); their field values live in another translation unit.  The
embedding therefore takes the values of the eight externs as a parameter
`defs : StyleTag → DefaultStyle`, and `sizeof(DefaultStyle)`, which depends on
the target ABI, as a parameter `elemSize`.  The initializer of
`numOrderedStyles` reads the array object `orderedStyles`; the embedding passes
the object it reads explicitly.
-/

namespace mbgl.util.default_styles

/-! ## Data model -/

/-- The record `struct DefaultStyle { const char* url; const char* name;
const unsigned currentVersion; }`.  The two C strings are embedded as
`String`, the `unsigned` as a natural number (it is only stored, never
computed with). -/
structure DefaultStyle where
  url : String
  name : String
  currentVersion : Nat
deriving DecidableEq, Repr

/-- The eight descriptors the header declares with
`extern const DefaultStyle <tag>;`, one constructor per declaration, in the
order of the declarations. -/
inductive StyleTag where
  | streets
  | outdoors
  | light
  | dark
  | satellite
  | satelliteStreets
  | trafficDay
  | trafficNight
deriving DecidableEq, Repr, Fintype

/-- The C++ identifier of each declared descriptor, as written in the header. -/
def StyleTag.ident : StyleTag → String
  | .streets => "streets"
  | .outdoors => "outdoors"
  | .light => "light"
  | .dark => "dark"
  | .satellite => "satellite"
  | .satelliteStreets => "satelliteStreets"
  | .trafficDay => "trafficDay"
  | .trafficNight => "trafficNight"

/-- The `extern` declarations of the header, in the order they are written
(`extern const DefaultStyle streets;` first, `trafficNight` last). -/
def declaredStyles : List StyleTag :=
  [ StyleTag.streets
  , StyleTag.outdoors
  , StyleTag.light
  , StyleTag.dark
  , StyleTag.satellite
  , StyleTag.satelliteStreets
  , StyleTag.trafficDay
  , StyleTag.trafficNight ]

/-! ## The ordered catalog -/

/-- The identifiers written in the initializer of `orderedStyles`, in the
order they are written:
`{ streets, outdoors, light, dark, satellite, satelliteStreets, trafficDay,
trafficNight, }`. -/
def orderedStyleTags : List StyleTag :=
  [ StyleTag.streets, StyleTag.outdoors, StyleTag.light, StyleTag.dark,
    StyleTag.satellite, StyleTag.satelliteStreets,
    StyleTag.trafficDay, StyleTag.trafficNight ]

/-- The array `const DefaultStyle orderedStyles[] = { streets, outdoors, light,
dark, satellite, satelliteStreets, trafficDay, trafficNight, };`.  Each element
is copy-initialised from the extern descriptor named at that position, whose
value is `defs tag`. -/
def orderedStyles (defs : StyleTag → DefaultStyle) : List DefaultStyle :=
  [ defs StyleTag.streets, defs StyleTag.outdoors, defs StyleTag.light,
    defs StyleTag.dark, defs StyleTag.satellite, defs StyleTag.satelliteStreets,
    defs StyleTag.trafficDay, defs StyleTag.trafficNight ]

/-- The value of `sizeof(a)` for an array `a` whose elements have size
`elemSize`: the number of bytes of the array object, which is the number of
elements times the element size.  `sizeof` reports the size of an existing
object, and every object size is representable in `size_t`, so this is the
exact product (the lemma `numOrderedStyles_sizeT` relates it to arithmetic
modulo the width of `size_t`). -/
def sizeofArray {α : Type} (elemSize : Nat) (a : List α) : Nat :=
  a.length * elemSize

/-- The count `const size_t numOrderedStyles = sizeof(orderedStyles) /
sizeof(DefaultStyle);`.  The initializer reads the array object
`orderedStyles`, passed here as `a`, and `elemSize` stands for
`sizeof(DefaultStyle)`; the constant of the header is
`numOrderedStyles elemSize (orderedStyles defs)`. -/
def numOrderedStyles (elemSize : Nat) (a : List DefaultStyle) : Nat :=
  sizeofArray elemSize a / elemSize

/-- The same quotient computed in `size_t` arithmetic of `bits` bits: both
operands and the result are reduced modulo `2 ^ bits`. -/
def numOrderedStylesSizeT (bits elemSize : Nat) (a : List DefaultStyle) : Nat :=
  ((sizeofArray elemSize a % 2 ^ bits) / (elemSize % 2 ^ bits)) % 2 ^ bits

/-- The presentation order the specification writes out as a literal list:
"streets, outdoors, light, dark, satellite, satelliteStreets, trafficDay,
trafficNight".  This list follows the specification's sentence; it is compared
with `orderedStyles`, which follows the header. -/
def specPresentationOrder : List StyleTag :=
  [ .streets, .outdoors, .light, .dark, .satellite, .satelliteStreets, .trafficDay,
    .trafficNight ]

/-- An illustrative set of values for the eight extern descriptors, used to
evaluate the definitions on a concrete input.  The header does not contain the
out-of-line definitions, so these values are examples and not the project's. -/
def exampleDefs : StyleTag → DefaultStyle
  | .streets => { url := "example://styles/streets", name := "Streets", currentVersion := 10 }
  | .outdoors => { url := "example://styles/outdoors", name := "Outdoors", currentVersion := 10 }
  | .light => { url := "example://styles/light", name := "Light", currentVersion := 9 }
  | .dark => { url := "example://styles/dark", name := "Dark", currentVersion := 9 }
  | .satellite => { url := "example://styles/satellite", name := "Satellite", currentVersion := 9 }
  | .satelliteStreets =>
      { url := "example://styles/satellite-streets", name := "Satellite Streets",
        currentVersion := 10 }
  | .trafficDay => { url := "example://styles/traffic-day", name := "Traffic Day", currentVersion := 2 }
  | .trafficNight =>
      { url := "example://styles/traffic-night", name := "Traffic Night", currentVersion := 2 }

/-- The definitions `defs` of the eight extern descriptors give two different
descriptors different urls.  This is a property of the out-of-line
definitions, which the header declares but does not contain; the specification
states it as the invariant "`identifier` is unique across all descriptors in
the registry". -/
def UniqueIdentifiers (defs : StyleTag → DefaultStyle) : Prop :=
  ∀ a b : StyleTag, a ≠ b → (defs a).url ≠ (defs b).url

instance instDecidableUniqueIdentifiers (defs : StyleTag → DefaultStyle) :
    Decidable (UniqueIdentifiers defs) :=
  inferInstanceAs (Decidable (∀ a b : StyleTag, a ≠ b → (defs a).url ≠ (defs b).url))

/-! ## The objects of the header and the accesses of a program to them -/

/-- The objects of static storage duration that the header gives a program,
once initialised: the eight descriptors, the array built from them and the
count. -/
structure Globals where
  descriptors : StyleTag → DefaultStyle
  orderedStyles : List DefaultStyle
  numOrderedStyles : Nat

/-- Static initialisation: the externs take their defined values, the array is
copy-initialised from them and the count is computed from the array. -/
def Globals.init (elemSize : Nat) (defs : StyleTag → DefaultStyle) : Globals :=
  { descriptors := defs
    orderedStyles := mbgl.util.default_styles.orderedStyles defs
    numOrderedStyles :=
      mbgl.util.default_styles.numOrderedStyles elemSize
        (mbgl.util.default_styles.orderedStyles defs) }

/-- The objects the header declares: the eight descriptors
(`extern const DefaultStyle <tag>;`), the array (`const DefaultStyle
orderedStyles[]`) and the count (`const size_t numOrderedStyles`). -/
inductive Obj where
  | descriptor (t : StyleTag)
  | orderedStyles
  | numOrderedStyles
deriving DecidableEq, Repr

/-- Whether the header declares the object `const`.  All three kinds of
declaration carry the qualifier: `extern const DefaultStyle streets;` and its
seven siblings, `const DefaultStyle orderedStyles[]`, and
`const size_t numOrderedStyles`. -/
def Obj.isConst : Obj → Bool
  | .descriptor _ => true
  | .orderedStyles => true
  | .numOrderedStyles => true

/-- One access of a program to the objects of the header: a read of the whole
array, of one element, of the count or of a descriptor, or an assignment to an
element of the array, to the count or to a descriptor. -/
inductive Access where
  | readCatalog
  | readEntry (i : Nat)
  | readCount
  | readDescriptor (t : StyleTag)
  | writeEntry (i : Nat) (v : DefaultStyle)
  | writeCount (n : Nat)
  | writeDescriptor (t : StyleTag) (v : DefaultStyle)
deriving DecidableEq, Repr

/-- The object an access reads or assigns to. -/
def Access.target : Access → Obj
  | .readCatalog => Obj.orderedStyles
  | .readEntry _ => Obj.orderedStyles
  | .readCount => Obj.numOrderedStyles
  | .readDescriptor t => Obj.descriptor t
  | .writeEntry _ _ => Obj.orderedStyles
  | .writeCount _ => Obj.numOrderedStyles
  | .writeDescriptor t _ => Obj.descriptor t

/-- Whether an access is an assignment. -/
def Access.isWrite : Access → Bool
  | .writeEntry _ _ => true
  | .writeCount _ => true
  | .writeDescriptor _ _ => true
  | _ => false

/-- An access is accepted by the compiler when it is a read, or an
assignment to an object that is not declared `const`; `isConst` gives the
qualifier of each object (`Obj.isConst` for the header as written). -/
def Access.wellFormed (isConst : Obj → Bool) (a : Access) : Bool :=
  !a.isWrite || !isConst a.target

/-- What an access yields to the program. -/
inductive Value where
  | catalog (entries : List DefaultStyle)
  | entry (e : Option DefaultStyle)
  | count (n : Nat)
  | descriptor (d : DefaultStyle)
  | stored
deriving DecidableEq, Repr

/-- The effect of one access: a read yields the value held by the object and
leaves the globals as they are, an assignment stores the new value in the
object.  The elements of the array are copies, so an assignment to a
descriptor does not reach the array. -/
def Access.run : Access → Globals → Value × Globals
  | .readCatalog, g => (Value.catalog g.orderedStyles, g)
  | .readEntry i, g => (Value.entry g.orderedStyles[i]?, g)
  | .readCount, g => (Value.count g.numOrderedStyles, g)
  | .readDescriptor t, g => (Value.descriptor (g.descriptors t), g)
  | .writeEntry i v, g => (Value.stored, { g with orderedStyles := g.orderedStyles.set i v })
  | .writeCount n, g => (Value.stored, { g with numOrderedStyles := n })
  | .writeDescriptor t v, g =>
      (Value.stored, { g with descriptors := fun u => if u = t then v else g.descriptors u })

/-- The effect of a sequence of accesses, in order: the values they yield and
the globals at the end. -/
def runAll : List Access → Globals → List Value × Globals
  | [], g => ([], g)
  | a :: rest, g =>
      let r := a.run g
      let rs := runAll rest r.2
      (r.1 :: rs.1, rs.2)

/-- Read the catalog, perform the accesses `between`, read the catalog again:
the value of the first read, the value of the second read and the globals at
the end. -/
def readTwice (between : List Access) (g : Globals) : Value × Value × Globals :=
  let r1 := Access.run Access.readCatalog g
  let mid := runAll between r1.2
  let r2 := Access.run Access.readCatalog mid.2
  (r1.1, r2.1, r2.2)

/-! ## Basic facts shared by the results below -/

theorem orderedStyles_length (defs : StyleTag → DefaultStyle) :
    (orderedStyles defs).length = 8 := rfl

theorem sizeofArray_div {α : Type} (elemSize : Nat) (a : List α) (h : 0 < elemSize) :
    sizeofArray elemSize a / elemSize = a.length := by
  unfold sizeofArray
  exact Nat.mul_div_cancel a.length h

theorem sizeofArray_mod {α : Type} (elemSize : Nat) (a : List α) :
    sizeofArray elemSize a % elemSize = 0 := by
  unfold sizeofArray
  exact Nat.mul_mod_left a.length elemSize

theorem numOrderedStyles_eq_length (elemSize : Nat) (a : List DefaultStyle)
    (h : 0 < elemSize) : numOrderedStyles elemSize a = a.length :=
  sizeofArray_div elemSize a h

/-- Whenever the array object fits in a `size_t` of `bits` bits, the quotient
computed modulo `2 ^ bits` is the quotient computed on the exact sizes. -/
theorem numOrderedStyles_sizeT (bits elemSize : Nat) (a : List DefaultStyle)
    (h : 0 < elemSize) (hfit : sizeofArray elemSize a < 2 ^ bits) :
    numOrderedStylesSizeT bits elemSize a = numOrderedStyles elemSize a := by
  have hnum : numOrderedStyles elemSize a = a.length := numOrderedStyles_eq_length elemSize a h
  have hsz : sizeofArray elemSize a = a.length * elemSize := rfl
  have hle : a.length ≤ a.length * elemSize := Nat.le_mul_of_pos_right _ h
  have hlen : a.length < 2 ^ bits := by omega
  unfold numOrderedStylesSizeT
  rw [Nat.mod_eq_of_lt hfit]
  rcases Nat.eq_zero_or_pos a.length with h0 | hpos
  · have hz : sizeofArray elemSize a = 0 := by rw [hsz, h0, Nat.zero_mul]
    rw [hnum, h0, hz, Nat.zero_div, Nat.zero_mod]
  · have hs : elemSize < 2 ^ bits := by
      have : elemSize ≤ a.length * elemSize := Nat.le_mul_of_pos_left _ hpos
      omega
    rw [Nat.mod_eq_of_lt hs]
    have hq : sizeofArray elemSize a / elemSize = a.length := hnum
    rw [hq, hnum]
    exact Nat.mod_eq_of_lt hlen

/-- A read leaves the globals as they are, and with the qualifiers of the
header every accepted access is a read. -/
theorem Access.run_wellFormed (a : Access) (h : a.wellFormed Obj.isConst = true)
    (g : Globals) : (a.run g).2 = g := by
  cases a <;> first | rfl | exact absurd (show false = true from h) Bool.false_ne_true

/-- A sequence of accesses that the compiler accepts against the header leaves
the globals as they are, and yields one value per access. -/
theorem runAll_wellFormed (ops : List Access)
    (h : ops.all (Access.wellFormed Obj.isConst) = true) (g : Globals) :
    (runAll ops g).2 = g ∧ (runAll ops g).1.length = ops.length := by
  induction ops generalizing g with
  | nil => exact ⟨rfl, rfl⟩
  | cons a rest ih =>
    rw [List.all_cons, Bool.and_eq_true] at h
    have ha : (a.run g).2 = g := Access.run_wellFormed a h.1 g
    have hr := ih h.2 (a.run g).2
    refine ⟨?_, ?_⟩
    · show (runAll rest (a.run g).2).2 = g
      rw [hr.1, ha]
    · show (runAll rest (a.run g).2).1.length + 1 = rest.length + 1
      rw [hr.2]

/-- The qualifier is what rules assignments out: were the array not declared
`const`, an assignment to its first element would be accepted and a later read
would see another catalog. -/
theorem write_accepted_without_const :
    Access.wellFormed Obj.isConst (Access.writeEntry 0 (exampleDefs StyleTag.dark)) = false ∧
    Access.wellFormed (fun _ => false) (Access.writeEntry 0 (exampleDefs StyleTag.dark)) = true ∧
    (readTwice [Access.writeEntry 0 (exampleDefs StyleTag.dark)]
        (Globals.init 24 exampleDefs)).2.1 ≠
      Value.catalog (orderedStyles exampleDefs) := by
  refine ⟨rfl, rfl, ?_⟩
  decide

/-! ## The catalog's content and order -/

/-- C1: the ordered catalog `orderedStyles` is exactly the sequence streets,
outdoors, light, dark, satellite, satelliteStreets, trafficDay, trafficNight
that the specification writes out.  At every position `i` from 0 to 7 the
catalog has an entry, the specification's list has a tag, and the entry has the
url, name and currentVersion of the descriptor with that tag; as whole
sequences the catalog is the specification's list of descriptors. -/
theorem orderedStyles_is_presentation_order (defs : StyleTag → DefaultStyle) (i : Nat)
    (hi : i < 8) :
    orderedStyles defs = specPresentationOrder.map defs ∧
    ∃ d t, (orderedStyles defs)[i]? = some d ∧ specPresentationOrder[i]? = some t ∧
      d.url = (defs t).url ∧ d.name = (defs t).name ∧
      d.currentVersion = (defs t).currentVersion := by
  refine ⟨rfl, ?_⟩
  interval_cases i <;> exact ⟨_, _, rfl, rfl, rfl, rfl, rfl⟩

theorem orderedStyles_is_presentation_order_witness :
    (5 < 8) ∧ orderedStyles exampleDefs = specPresentationOrder.map exampleDefs ∧
    ∃ d t, (orderedStyles exampleDefs)[5]? = some d ∧ specPresentationOrder[5]? = some t ∧
      d.url = (exampleDefs t).url ∧ d.name = (exampleDefs t).name ∧
      d.currentVersion = (exampleDefs t).currentVersion :=
  ⟨by decide, orderedStyles_is_presentation_order exampleDefs 5 (by decide)⟩

/-- C2: `numOrderedStyles` equals 8 and the catalog `orderedStyles` has exactly
8 entries, whatever the (positive) size of one `DefaultStyle` and whatever the
values of the eight descriptors; computed in a `size_t` wide enough to hold the
size of the array, the count is 8 as well. -/
theorem numOrderedStyles_eq_eight (elemSize : Nat) (defs : StyleTag → DefaultStyle)
    (h : 0 < elemSize) :
    numOrderedStyles elemSize (orderedStyles defs) = 8 ∧ (orderedStyles defs).length = 8 ∧
    ∀ bits, 8 * elemSize < 2 ^ bits →
      numOrderedStylesSizeT bits elemSize (orderedStyles defs) = 8 := by
  have hnum : numOrderedStyles elemSize (orderedStyles defs) = 8 := by
    rw [numOrderedStyles_eq_length elemSize (orderedStyles defs) h, orderedStyles_length]
  refine ⟨hnum, rfl, ?_⟩
  intro bits hfit
  have hsz : sizeofArray elemSize (orderedStyles defs) = 8 * elemSize := rfl
  rw [numOrderedStyles_sizeT bits elemSize (orderedStyles defs) h (by omega), hnum]

theorem numOrderedStyles_eq_eight_witness :
    (0 < 24) ∧ numOrderedStyles 24 (orderedStyles exampleDefs) = 8 ∧
    (orderedStyles exampleDefs).length = 8 ∧
    ∀ bits, 8 * 24 < 2 ^ bits → numOrderedStylesSizeT bits 24 (orderedStyles exampleDefs) = 8 :=
  ⟨by decide, numOrderedStyles_eq_eight 24 exampleDefs (by decide)⟩

/-- C4: every one of the eight declared descriptors is named by the catalog
`orderedStyles` exactly once.  The tags of the catalog are a permutation of the
declared tags, they contain no duplicate, every tag of the module occurs in
them exactly once (so none is omitted and none appears twice), and the catalog
is these tags resolved to their descriptors. -/
theorem orderedStyleTags_perm_declaredStyles :
    orderedStyleTags.Perm declaredStyles ∧ orderedStyleTags.Nodup ∧
    (∀ t : StyleTag, t ∈ declaredStyles ∧ orderedStyleTags.count t = 1) ∧
    ∀ defs : StyleTag → DefaultStyle, orderedStyles defs = orderedStyleTags.map defs := by
  refine ⟨List.Perm.refl _, by decide, ?_, fun _ => rfl⟩
  intro t
  cases t <;> exact ⟨by decide, rfl⟩

/-- C5: reading the catalog twice in succession gives two sequences of the same
length that agree at every position in url, name and currentVersion, both
being the array `orderedStyles`, and leaves the globals (the descriptors, the
catalog and the count) as they were.  The same holds when the program performs
any accesses between the two reads that the compiler accepts against the
header: every object is declared `const`, so those accesses are reads. -/
theorem readTwice_same_catalog (elemSize : Nat) (defs : StyleTag → DefaultStyle)
    (between : List Access) (hwf : between.all (Access.wellFormed Obj.isConst) = true) :
    readTwice [] (Globals.init elemSize defs) =
      (Value.catalog (orderedStyles defs), Value.catalog (orderedStyles defs),
        Globals.init elemSize defs) ∧
    ∃ l1 l2 : List DefaultStyle,
      readTwice between (Globals.init elemSize defs) =
        (Value.catalog l1, Value.catalog l2, Globals.init elemSize defs) ∧
      l1 = orderedStyles defs ∧ l1.length = l2.length ∧
      ∀ i : Nat, (l1[i]?).map DefaultStyle.url = (l2[i]?).map DefaultStyle.url ∧
        (l1[i]?).map DefaultStyle.name = (l2[i]?).map DefaultStyle.name ∧
        (l1[i]?).map DefaultStyle.currentVersion = (l2[i]?).map DefaultStyle.currentVersion := by
  have hmid : (runAll between (Globals.init elemSize defs)).2 = Globals.init elemSize defs :=
    (runAll_wellFormed between hwf (Globals.init elemSize defs)).1
  have hrun : readTwice between (Globals.init elemSize defs) =
      (Value.catalog (orderedStyles defs), Value.catalog (orderedStyles defs),
        Globals.init elemSize defs) := by
    show (Value.catalog (orderedStyles defs),
        Value.catalog (runAll between (Globals.init elemSize defs)).2.orderedStyles,
        (runAll between (Globals.init elemSize defs)).2) = _
    rw [hmid]
    rfl
  exact ⟨rfl, orderedStyles defs, orderedStyles defs, hrun, rfl, rfl,
    fun _ => ⟨rfl, rfl, rfl⟩⟩

theorem readTwice_same_catalog_witness :
    ([Access.readEntry 3, Access.readCount, Access.readDescriptor StyleTag.light].all
        (Access.wellFormed Obj.isConst) = true) ∧
    readTwice [] (Globals.init 24 exampleDefs) =
      (Value.catalog (orderedStyles exampleDefs), Value.catalog (orderedStyles exampleDefs),
        Globals.init 24 exampleDefs) ∧
    ∃ l1 l2 : List DefaultStyle,
      readTwice [Access.readEntry 3, Access.readCount, Access.readDescriptor StyleTag.light]
          (Globals.init 24 exampleDefs) =
        (Value.catalog l1, Value.catalog l2, Globals.init 24 exampleDefs) ∧
      l1 = orderedStyles exampleDefs ∧ l1.length = l2.length ∧
      ∀ i : Nat, (l1[i]?).map DefaultStyle.url = (l2[i]?).map DefaultStyle.url ∧
        (l1[i]?).map DefaultStyle.name = (l2[i]?).map DefaultStyle.name ∧
        (l1[i]?).map DefaultStyle.currentVersion = (l2[i]?).map DefaultStyle.currentVersion :=
  ⟨by decide, readTwice_same_catalog 24 exampleDefs _ (by decide)⟩

/-- C6: the count is derived from the sequence itself.  For every positive
element size `s`, `numOrderedStyles` computed from any array `a` is the number
of elements of `a`, the division `sizeof(a) / s` leaving remainder 0, and an
array with one more element gives a count one higher: the count follows the
sequence.  In particular the count of the header is the number of entries of
`orderedStyles`, also in the initialised globals and in a `size_t` of any width
that can hold the size of the array. -/
theorem numOrderedStyles_derived_from_sequence (s : Nat) (defs : StyleTag → DefaultStyle)
    (hs : 0 < s) :
    (∀ a : List DefaultStyle, numOrderedStyles s a = a.length ∧ sizeofArray s a % s = 0) ∧
    (∀ (a : List DefaultStyle) (d : DefaultStyle),
      numOrderedStyles s (a ++ [d]) = numOrderedStyles s a + 1) ∧
    sizeofArray s (orderedStyles defs) / s = (orderedStyles defs).length ∧
    sizeofArray s (orderedStyles defs) % s = 0 ∧
    numOrderedStyles s (orderedStyles defs) = (orderedStyles defs).length ∧
    (Globals.init s defs).numOrderedStyles = (Globals.init s defs).orderedStyles.length ∧
    ∀ bits, sizeofArray s (orderedStyles defs) < 2 ^ bits →
      numOrderedStylesSizeT bits s (orderedStyles defs) = (orderedStyles defs).length := by
  refine ⟨fun a => ⟨numOrderedStyles_eq_length s a hs, sizeofArray_mod s a⟩, ?_,
    sizeofArray_div s (orderedStyles defs) hs, sizeofArray_mod s (orderedStyles defs),
    numOrderedStyles_eq_length s (orderedStyles defs) hs,
    numOrderedStyles_eq_length s (orderedStyles defs) hs, ?_⟩
  · intro a d
    rw [numOrderedStyles_eq_length s _ hs, numOrderedStyles_eq_length s _ hs,
      List.length_append, List.length_singleton]
  · intro bits hfit
    exact (numOrderedStyles_sizeT bits s (orderedStyles defs) hs hfit).trans
      (numOrderedStyles_eq_length s (orderedStyles defs) hs)

theorem numOrderedStyles_derived_from_sequence_witness :
    (0 < 12) ∧
    (∀ a : List DefaultStyle, numOrderedStyles 12 a = a.length ∧ sizeofArray 12 a % 12 = 0) ∧
    (∀ (a : List DefaultStyle) (d : DefaultStyle),
      numOrderedStyles 12 (a ++ [d]) = numOrderedStyles 12 a + 1) ∧
    sizeofArray 12 (orderedStyles exampleDefs) / 12 = (orderedStyles exampleDefs).length ∧
    sizeofArray 12 (orderedStyles exampleDefs) % 12 = 0 ∧
    numOrderedStyles 12 (orderedStyles exampleDefs) = (orderedStyles exampleDefs).length ∧
    (Globals.init 12 exampleDefs).numOrderedStyles =
      (Globals.init 12 exampleDefs).orderedStyles.length ∧
    ∀ bits, sizeofArray 12 (orderedStyles exampleDefs) < 2 ^ bits →
      numOrderedStylesSizeT bits 12 (orderedStyles exampleDefs) =
        (orderedStyles exampleDefs).length :=
  ⟨by decide, numOrderedStyles_derived_from_sequence 12 exampleDefs (by decide)⟩

/-- C7: indexed access to the catalog is in bounds exactly for the indices
below the count: `orderedStyles` has an entry at `i` if and only if
`i < numOrderedStyles`.  Hence reading `orderedStyles[i]` for
`i = 0, 1, ..., numOrderedStyles - 1` finds an entry each time and visits the
whole catalog, in order. -/
theorem orderedStyles_in_bounds_iff (elemSize : Nat) (defs : StyleTag → DefaultStyle)
    (h : 0 < elemSize) (i : Nat) :
    (((orderedStyles defs)[i]?).isSome = true ↔
      i < numOrderedStyles elemSize (orderedStyles defs)) ∧
    (List.range (numOrderedStyles elemSize (orderedStyles defs))).map
        (fun k => (orderedStyles defs)[k]?) =
      (orderedStyles defs).map some := by
  have hnum : numOrderedStyles elemSize (orderedStyles defs) = 8 := by
    rw [numOrderedStyles_eq_length elemSize (orderedStyles defs) h, orderedStyles_length]
  rw [hnum]
  refine ⟨?_, rfl⟩
  rw [Option.isSome_iff_exists]
  constructor
  · rintro ⟨d, hd⟩
    exact (List.getElem?_eq_some.mp hd).1
  · intro hi
    have hlen : i < (orderedStyles defs).length := hi
    exact ⟨(orderedStyles defs)[i], List.getElem?_eq_getElem hlen⟩

theorem orderedStyles_in_bounds_iff_witness :
    (0 < 24) ∧
    (((orderedStyles exampleDefs)[7]?).isSome = true ↔
      7 < numOrderedStyles 24 (orderedStyles exampleDefs)) ∧
    (List.range (numOrderedStyles 24 (orderedStyles exampleDefs))).map
        (fun k => (orderedStyles exampleDefs)[k]?) =
      (orderedStyles exampleDefs).map some :=
  ⟨by decide, orderedStyles_in_bounds_iff 24 exampleDefs (by decide) 7⟩

/-- C8: the presentation order is not alphabetical.  The names of the tags of
the catalog, in catalog order, are not sorted in ascending lexicographic order:
already the first two, "streets" and "outdoors", are out of order. -/
theorem orderedStyleTags_not_alphabetical :
    ¬ List.Sorted (fun a b : String => a ≤ b) (orderedStyleTags.map StyleTag.ident) ∧
    (orderedStyleTags.map StyleTag.ident)[1]? = some "outdoors" ∧
    (orderedStyleTags.map StyleTag.ident)[0]? = some "streets" ∧
    "outdoors" < "streets" := by
  have hlt : "outdoors" < "streets" := String.lt_iff_toList_lt.mpr (by decide)
  refine ⟨?_, rfl, rfl, hlt⟩
  intro hsorted
  have hpair : List.Pairwise (fun a b : String => a ≤ b)
      ("streets" :: "outdoors" :: (orderedStyleTags.drop 2).map StyleTag.ident) := hsorted
  have hle : "streets" ≤ "outdoors" :=
    (List.pairwise_cons.mp hpair).1 "outdoors" (List.mem_cons_self _ _)
  exact absurd hlt (not_lt.mpr hle)

/-- C9: the order of the entries of `orderedStyles` is the order in which the
eight descriptors are declared.  Both lists have 8 positions, the tags of the
catalog are the declared tags in declaration order, and at every position the
entry of the catalog is the descriptor declared at that position. -/
theorem orderedStyles_in_declaration_order (defs : StyleTag → DefaultStyle) :
    orderedStyleTags = declaredStyles ∧ declaredStyles.length = 8 ∧
    (orderedStyles defs).length = 8 ∧
    ∀ i : Nat, (orderedStyles defs)[i]? = (declaredStyles[i]?).map defs := by
  refine ⟨rfl, rfl, rfl, ?_⟩
  intro i
  rw [← List.getElem?_map]
  rfl

end mbgl.util.default_styles
